import Mathlib

/-!
Verification development for the validation-poc repository (Go backend).

The definitions below are a shallow embedding of the Go source:

* `backend/config/config.go` — `GetSchemaSourceMode`, `GetEnv`;
* `backend/service/schema.go` (mode-aware revision) — `GetSchema`,
  `validateMessageName`, `checkLocalSchema`, `fetchFromBSR`;
* `backend/service/validation.go` (mode-aware revision) — `ValidateProto`,
  `fetchDescriptorFromBSR`, `findMessageDescriptor`,
  `collectValidationErrors`, `makeFriendlyError`, `extractConstraintID`,
  `constraintIDToFriendly`, `cleanupTechnicalError`;
* `backend/service/commits.go` — `ListCommits`;
* `backend/handler/commits.go` — `GetCommits`.

External collaborators (the operating-system environment, the remote BSR
service, the protojson decoder and the protovalidate evaluator) are modelled
as explicit parameters or, where the Go code fixes their configuration, as
small definitions whose doc comments say which external behaviour they model.
Go strings are Lean `String`s; the text-processing helpers work on `List Char`
(`String.data`) so that every definition is executable and kernel-reducible.
-/

namespace ValidationPoc

/-! ### Character and list-of-character helpers

These model the ASCII character classes and scanning steps used by the Go
regular expressions in the source.  Go's RE2 class `\s` is `[\t\n\f\r ]`;
`unicode.IsSpace` (used by `strings.TrimSpace`) additionally accepts `\v`
(we restrict to the ASCII range, which is all the source ever feeds it). -/

/-- ASCII lower-casing of one character, as `strings.ToLower` acts on ASCII. -/
def asciiLower (c : Char) : Char :=
  if 'A' ≤ c && c ≤ 'Z' then Char.ofNat (c.toNat + 32) else c

/-- RE2 character class `\s`: tab, newline, form feed, carriage return, space. -/
def goRegexSpace (c : Char) : Bool :=
  c = '\t' || c = '\n' || c = '\x0c' || c = '\r' || c = ' '

/-- Whitespace as `unicode.IsSpace` sees it on ASCII input
(`strings.TrimSpace`, `strings.TrimSpace`-style trimming). -/
def goUnicodeSpace (c : Char) : Bool :=
  c = '\t' || c = '\n' || c = '\x0b' || c = '\x0c' || c = '\r' || c = ' '

/-- ASCII decimal digit. -/
def isDigitChar (c : Char) : Bool := '0' ≤ c && c ≤ '9'

/-- First character of a Go identifier: `[a-zA-Z_]`. -/
def isIdentStartChar (c : Char) : Bool :=
  ('a' ≤ c && c ≤ 'z') || ('A' ≤ c && c ≤ 'Z') || c = '_'

/-- Continuation character of a Go identifier: `[a-zA-Z0-9_]`. -/
def isIdentChar (c : Char) : Bool := isIdentStartChar c || isDigitChar c

/-- Does `pat` occur literally at the head of `cs`? -/
def leadMatch : List Char → List Char → Bool
  | [], _ => true
  | _ :: _, [] => false
  | p :: ps, c :: cs => p = c && leadMatch ps cs

/-- Does `pat` occur as a contiguous substring of `cs`?
Models `strings.Contains`. -/
def containsSub (pat : List Char) : List Char → Bool
  | [] => pat.isEmpty
  | c :: cs => leadMatch pat (c :: cs) || containsSub pat cs

/-- Strip the literal `pat` from the head of `cs`, or fail. -/
def dropLit : List Char → List Char → Option (List Char)
  | [], cs => some cs
  | _ :: _, [] => none
  | p :: ps, c :: cs => if p = c then dropLit ps cs else none

/-- Consume one-or-more decimal digits greedily (`\d+`), or fail. -/
def dropDigits1 : List Char → Option (List Char)
  | [] => none
  | c :: cs => if isDigitChar c then some (cs.dropWhile isDigitChar) else none

/-- Consume one-or-more RE2 whitespace characters greedily (`\s+`), or fail. -/
def dropSpaces1 : List Char → Option (List Char)
  | [] => none
  | c :: cs => if goRegexSpace c then some (cs.dropWhile goRegexSpace) else none

/-- Trim `unicode.IsSpace` characters from both ends, as `strings.TrimSpace`. -/
def goTrimSpaceList (cs : List Char) : List Char :=
  ((cs.dropWhile goUnicodeSpace).reverse.dropWhile goUnicodeSpace).reverse

/-- `strings.TrimSpace` on a Lean `String`. -/
def goTrimSpace (s : String) : String := String.mk (goTrimSpaceList s.data)

/-- `strings.ToLower` on a Lean `String` (ASCII range). -/
def goToLower (s : String) : String := String.mk (s.data.map asciiLower)

/-! ### Configuration (`backend/config/config.go`) -/

/-- `SchemaSourceMode` from `config.go`: the strategy for retrieving schemas
and validation descriptors. -/
inductive SchemaSourceMode
  | LocalThenBSR
  | BSROnly
  | LocalOnly
deriving DecidableEq

/-- The process environment: `os.Getenv` returns `""` for unset variables,
so an environment is a total map from names to strings with `""` meaning
"unset". -/
abbrev Env := String → String

/-- `GetEnv` from `config.go`: the environment value, or `defaultValue` when
the variable is empty/unset. -/
def getEnv (env : Env) (key defaultValue : String) : String :=
  if env key = "" then defaultValue else env key

/-- The environment-variable name chosen by `GetSchemaSourceMode` for a given
context string (`"schema"`, `"validation"`, anything else defaults to the
schema variable). -/
def modeEnvVar (context : String) : String :=
  let c := goToLower (goTrimSpace context)
  if c = "schema" then "SCHEMA_SOURCE_MODE"
  else if c = "validation" then "VALIDATION_SOURCE_MODE"
  else "SCHEMA_SOURCE_MODE"

/-- The trimmed, lower-cased mode string `GetSchemaSourceMode` switches on. -/
def modeString (env : Env) (context : String) : String :=
  goToLower (goTrimSpace (getEnv env (modeEnvVar context) "local-then-bsr"))

/-- `GetSchemaSourceMode` from `config.go` lines 28-58: reads the mode from the
context-selected environment variable and falls back to `LocalThenBSR` for
any unrecognised value. -/
def GetSchemaSourceMode (env : Env) (context : String) : SchemaSourceMode :=
  let m := modeString env context
  if m = "bsr-only" then .BSROnly
  else if m = "local-only" then .LocalOnly
  else if m = "local-then-bsr" then .LocalThenBSR
  else .LocalThenBSR

/-! ### Type-name validation (`backend/service/schema.go`) -/

/-- One dot-separated segment matches `[a-zA-Z_][a-zA-Z0-9_]*`. -/
def isIdentSeg : List Char → Bool
  | [] => false
  | c :: cs => isIdentStartChar c && cs.all isIdentChar

/-- Split a character list at every `'.'` (as Go's regex alternation over
dot-separated identifiers sees the name). -/
def splitOnDot : List Char → List (List Char)
  | [] => [[]]
  | c :: cs =>
    if c = '.' then [] :: splitOnDot cs
    else
      match splitOnDot cs with
      | [] => [[c]]
      | seg :: rest => (c :: seg) :: rest

/-- `validateMessageName` from `schema.go`: empty names and names without a
dot are rejected with their own messages; otherwise the name must match
the anchored pattern of dot-separated identifiers
(given that a dot is present, that is exactly "every dot-segment is an
identifier"). -/
def validateMessageName (messageName : String) : Except String Unit :=
  if messageName = "" then .error "message name cannot be empty"
  else if ¬ (messageName.data.contains '.') then
    .error ("message name must be in format \x27package.Message\x27, got: " ++ messageName)
  else if (splitOnDot messageName.data).all isIdentSeg then .ok ()
  else
    .error ("message name must match pattern \x27package.Message\x27 with valid identifiers, got: " ++ messageName)

/-! ### Remote fetch outcomes

The remote BSR service is an external collaborator; a fixed remote response
is a value of the types below.  `FetchError` mirrors the distinct
`fmt.Errorf` values the fetch helpers produce. -/

/-- Outward failure of a BSR HTTP fetch, one constructor per distinct error
value in the source: transport failure of `httpClient.Do`/`Get`, the 404
branch, the generic non-200 branch, and the malformed-body branches
(body read, JSON unmarshal, empty set, descriptor construction). -/
inductive FetchError
  | transport
  | notFound404
  | statusCode (code : Nat)
  | decodeBody
deriving DecidableEq

/-- A fixed answer of the remote schema-bundle endpoint for one request:
either no HTTP response at all, or a status code with a raw body. -/
inductive SchemaRemote
  | noResponse
  | response (code : Nat) (body : String)

/-- `fetchFromBSR` from the mode-aware `SchemaService`: transport failure,
then the 404 branch, then the generic non-200 branch, then the raw body. -/
def fetchFromBSRSchema : SchemaRemote → Except FetchError String
  | .noResponse => .error .transport
  | .response code body =>
    if code = 404 then .error .notFound404
    else if code ≠ 200 then .error (.statusCode code)
    else .ok body

/-- Outward error of `GetSchema`, one constructor per wrapping `fmt.Errorf`:
`invalid message name: %w`, `schema not found locally for %s`,
`failed to fetch from BSR: %w`. -/
inductive SchemaError
  | invalidName (msg : String)
  | notFoundLocal (name : String)
  | bsrFetch (e : FetchError)
deriving DecidableEq

/-- The local schema-bundle store: `checkLocalSchema` either reads the file's
bytes or reports "not found or unreadable", so it is a map from names to
optional contents. -/
abbrev LocalSchemaStore := String → Option String

/-- `GetSchema` from the mode-aware `SchemaService` (the revision the spec
describes): validate the name first, then dispatch on the mode —
`BSROnly` fetches remotely, `LocalOnly` only consults the local store,
`LocalThenBSR` consults the local store and falls back to the remote. -/
def GetSchema (mode : SchemaSourceMode) (localStore : LocalSchemaStore)
    (remote : SchemaRemote) (messageName : String) : Except SchemaError String :=
  match validateMessageName messageName with
  | .error e => .error (.invalidName e)
  | .ok _ =>
    match mode with
    | .BSROnly =>
      match fetchFromBSRSchema remote with
      | .error e => .error (.bsrFetch e)
      | .ok schema => .ok schema
    | .LocalOnly =>
      match localStore messageName with
      | some schema => .ok schema
      | none => .error (.notFoundLocal messageName)
    | .LocalThenBSR =>
      match localStore messageName with
      | some schema => .ok schema
      | none =>
        match fetchFromBSRSchema remote with
        | .error e => .error (.bsrFetch e)
        | .ok schema => .ok schema

/-! ### Error-text cleanup (`cleanupTechnicalError`, `validation.go` lines 524-547)

The three `regexp.MustCompile(...).ReplaceAllString(..., "")` steps are
embedded as scanners over `List Char`.  Each regex begins with either a
literal or a whitespace class followed by a literal, so the greedy matchers
below are exactly RE2's leftmost matches, replaced by the empty string and
resumed after the match, as `ReplaceAllString` does. -/





/-- One match of the pattern `<input>:\d+:\d+:\s*` at the head of the input;
returns the remainder after the match. -/
def matchLocator (cs : List Char) : Option (List Char) :=
  match dropLit "<input>:".data cs with
  | none => none
  | some cs1 =>
    match dropDigits1 cs1 with
    | none => none
    | some cs2 =>
      match dropLit ":".data cs2 with
      | none => none
      | some cs3 =>
        match dropDigits1 cs3 with
        | none => none
        | some cs4 =>
          match dropLit ":".data cs4 with
          | none => none
          | some cs5 => some (cs5.dropWhile goRegexSpace)


/-- The apostrophe character, written by code point to keep source text plain. -/
def quoteChar : Char := Char.ofNat 39

/-- The character class `[^']`. -/
def nonQuote (c : Char) : Bool := !(c = quoteChar)

/-- One match of the pattern `\s*\(in container '[^']*'\)` at the head of the
input; returns the remainder after the match.  The `\s*` is taken greedily;
since `(` is not a whitespace character this agrees with RE2. -/
def matchContainer (cs : List Char) : Option (List Char) :=
  match dropLit "(in container \x27".data (cs.dropWhile goRegexSpace) with
  | none => none
  | some cs2 =>
    match dropLit "\x27)".data (cs2.dropWhile nonQuote) with
    | none => none
    | some cs4 => some cs4


/-- Scanner for `<input>:\d+:\d+:\s*`: on a match, resume after the matched
text; otherwise keep one character and advance.  The `fuel` argument only
bounds the recursion for the kernel: every step shortens the input by at
least one character (`matchLocatorLen`), so `fuel = cs.length` never runs
out before the input is exhausted. -/
def removeInputLocatorsAux : Nat → List Char → List Char
  | 0, cs => cs
  | _ + 1, [] => []
  | fuel + 1, c :: cs =>
    match matchLocator (c :: cs) with
    | some rest => removeInputLocatorsAux fuel rest
    | none => c :: removeInputLocatorsAux fuel cs

/-- Remove every occurrence of `<input>:\d+:\d+:\s*`
(the second `ReplaceAllString` in `cleanupTechnicalError`). -/
def removeInputLocators (cs : List Char) : List Char :=
  removeInputLocatorsAux cs.length cs

/-- Scanner for `\s*\(in container '[^']*'\)`, fuelled like
`removeInputLocatorsAux` (sufficiency by `matchContainerLen`). -/
def removeContainerSuffixAux : Nat → List Char → List Char
  | 0, cs => cs
  | _ + 1, [] => []
  | fuel + 1, c :: cs =>
    match matchContainer (c :: cs) with
    | some rest => removeContainerSuffixAux fuel rest
    | none => c :: removeContainerSuffixAux fuel cs

/-- Remove every occurrence of `\s*\(in container '[^']*'\)`
(the third `ReplaceAllString` in `cleanupTechnicalError`). -/
def removeContainerSuffix (cs : List Char) : List Char :=
  removeContainerSuffixAux cs.length cs

/-- Strip a leading case-insensitive `ERROR:` and the whitespace after it
(the first, anchored `ReplaceAllString` in `cleanupTechnicalError`). -/
def removeErrorHead (cs : List Char) : List Char :=
  if leadMatch "error:".data (cs.map asciiLower) then
    (cs.drop 6).dropWhile goRegexSpace
  else cs

/-- The cleaned string before `cleanupTechnicalError`'s final guard: strip the
`ERROR:` head, the `<input>:line:col:` locators and the
`(in container '...')` suffix, then trim whitespace. -/
def cleanupCore (t : String) : String :=
  String.mk (goTrimSpaceList (removeContainerSuffix (removeInputLocators (removeErrorHead t.data))))

/-- `cleanupTechnicalError` from `validation.go`: the cleaned text, unless
cleaning produced an empty or unchanged string, in which case the original
is returned. -/
def cleanupTechnicalError (t : String) : String :=
  if cleanupCore t = "" || cleanupCore t = t then t else cleanupCore t

/-! ### Constraint-ID extraction (`extractConstraintID`, `validation.go`)

The Go code runs `regexp.MustCompile` with the pattern
`compilation error:.*expression\s+([a-zA-Z_][a-zA-Z0-9_]*):` and takes the
first submatch.  RE2 finds the leftmost occurrence of the literal
`compilation error:` from which the rest of the pattern completes; `.*` does
not cross a newline and, being greedy, selects the last completing
`expression <id>:` start in that newline-free window; `\s+` inside the
trailer may itself cross newlines; the identifier and the colon admit no
backtracking because an identifier character is never `:`. -/

/-- Match `expression\s+([a-zA-Z_][a-zA-Z0-9_]*):` at the head of the input
and return the captured identifier. -/
def matchExprId (cs : List Char) : Option String :=
  match dropLit "expression".data cs with
  | none => none
  | some cs1 =>
    match dropSpaces1 cs1 with
    | none => none
    | some cs2 =>
      match cs2 with
      | [] => none
      | c :: rest =>
        if isIdentStartChar c then
          match rest.dropWhile isIdentChar with
          | ':' :: _ => some (String.mk (c :: rest.takeWhile isIdentChar))
          | _ => none
        else none

/-- Scan the newline-free window after one `compilation error:` for trailer
matches, keeping the last one (greedy `.*`). -/
def scanSegment : List Char → Option String
  | [] => none
  | c :: cs =>
    if c = '\n' then none
    else
      match matchExprId (c :: cs), scanSegment cs with
      | some _, some later => some later
      | some id, none => some id
      | none, r => r

/-- Try every occurrence of `compilation error:` from the left and return the
captured identifier of the first occurrence whose trailer completes. -/
def extractLoop : List Char → Option String
  | [] => none
  | c :: cs =>
    match dropLit "compilation error:".data (c :: cs) with
    | some rest =>
      match scanSegment rest with
      | some id => some id
      | none => extractLoop cs
    | none => extractLoop cs

/-- `extractConstraintID` from `validation.go`: the captured constraint id, or
`""` when the pattern does not match. -/
def extractConstraintID (t : String) : String := (extractLoop t.data).getD ""

/-- `constraintIDToFriendly` from `validation.go`: a static map of known ids,
else `Validation failed:` followed by the id with underscores replaced by
spaces and lower-cased. -/
def constraintIDToFriendly (cid : String) : String :=
  if cid = "comment_required_if_blocked" then
    "comment is required when status is TASK_STATUS_BLOCKED"
  else
    "Validation failed: " ++
      String.mk ((cid.data.map (fun c => if c = '_' then ' ' else c)).map asciiLower)

/-- `makeFriendlyError` from `validation.go`: CEL compilation errors go through
constraint-id extraction with cleanup as the fall-back; everything else goes
straight to cleanup. -/
def makeFriendlyError (technical : String) : String :=
  if containsSub "compilation error".data technical.data then
    if extractConstraintID technical ≠ "" then
      if constraintIDToFriendly (extractConstraintID technical) ≠ "" then
        constraintIDToFriendly (extractConstraintID technical)
      else cleanupTechnicalError technical
    else cleanupTechnicalError technical
  else cleanupTechnicalError technical

/-! ### The dynamic validation engine (`ValidateProto`, `validation.go`)

Message descriptors, the local compiled registry (`protoregistry.GlobalFiles`)
and the registries decoded from a BSR reply are modelled as queryable maps;
the protovalidate evaluator and the remote service are parameters. -/

/-- The JSON kind a field accepts, standing for the field's protobuf kind. -/
inductive FieldKind
  | stringField
  | intField
  | boolField
deriving DecidableEq

/-- One field of a message definition. -/
structure FieldDef where
  name : String
  kind : FieldKind
deriving DecidableEq

/-- A message descriptor: the structural definition validation runs against. -/
structure MessageDef where
  fields : List FieldDef
deriving DecidableEq

/-- An entry of a descriptor registry: `FindDescriptorByName` can resolve a
name to a message descriptor or to some non-message descriptor. -/
inductive Descriptor
  | message (md : MessageDef)
  | nonMessage
deriving DecidableEq

/-- A queryable descriptor registry (`protoregistry.Files`): lookup by fully
qualified name; `none` models the registry's not-found error. -/
abbrev Registry := String → Option Descriptor

/-- The decoded body of one reply of the BSR reflection endpoint:
`malformed` covers every body-processing failure branch of
`fetchDescriptorFromBSR` (unreadable body, bad JSON, empty
`fileDescriptorSet`, undecodable descriptor set), `wellFormed` carries the
registry built by `protodesc.NewFiles`. -/
inductive DescriptorBody
  | malformed
  | wellFormed (files : Registry)

/-- A fixed answer of the BSR reflection endpoint for one request. -/
inductive DescriptorRemote
  | noResponse
  | response (code : Nat) (body : DescriptorBody)

/-- `fetchDescriptorFromBSR` from `validation.go` lines 187-291: transport
failure, then the dedicated 404 branch, then the generic non-200 branch,
then body decoding.  There is no dedicated branch for status 401. -/
def fetchDescriptorFromBSR : DescriptorRemote → Except FetchError Registry
  | .noResponse => .error .transport
  | .response code body =>
    if code = 404 then .error .notFound404
    else if code ≠ 200 then .error (.statusCode code)
    else
      match body with
      | .malformed => .error .decodeBody
      | .wellFormed files => .ok files

/-- `findMessageDescriptor` from `validation.go` lines 295-322: when a fetched
registry is supplied, try it first and accept only a message descriptor;
in every other case fall back to the global (local compiled) registry,
where a missing name and a non-message resolution produce distinct
errors. -/
def findMessageDescriptor (globalFiles : Registry) (schemaName : String)
    (files : Option Registry) : Except String MessageDef :=
  let fromGlobal : Except String MessageDef :=
    match globalFiles schemaName with
    | none => .error ("not found: " ++ schemaName)
    | some (.message md) => .ok md
    | some .nonMessage =>
      .error ("schema name " ++ schemaName ++ " does not refer to a message")
  match files with
  | none => fromGlobal
  | some fs =>
    match fs schemaName with
    | some (.message md) => .ok md
    | _ => fromGlobal

/-- The outward processing error of `ValidateProto`, one constructor per
wrapping `fmt.Errorf`: `failed to fetch descriptor from BSR: %w`,
`unknown schema name: %s`,
`unknown schema name: %s (local and BSR lookup failed)`,
`failed to unmarshal JSON: %w`. -/
inductive ProcError
  | bsrFetch (e : FetchError)
  | unknownSchema (name : String)
  | unknownSchemaLocalAndBSR (name : String)
  | unmarshal (msg : String)
deriving DecidableEq

/-- Step 1 of `ValidateProto` (lines 332-372): resolve the message descriptor
according to the configured source mode, with the exact per-branch error
wrapping of the source. -/
def resolveDescriptor (mode : SchemaSourceMode) (globalFiles : Registry)
    (remote : DescriptorRemote) (schemaName : String) : Except ProcError MessageDef :=
  match mode with
  | .BSROnly =>
    match fetchDescriptorFromBSR remote with
    | .error e => .error (.bsrFetch e)
    | .ok files =>
      match findMessageDescriptor globalFiles schemaName (some files) with
      | .error _ => .error (.unknownSchema schemaName)
      | .ok md => .ok md
  | .LocalOnly =>
    match findMessageDescriptor globalFiles schemaName none with
    | .error _ => .error (.unknownSchema schemaName)
    | .ok md => .ok md
  | .LocalThenBSR =>
    match findMessageDescriptor globalFiles schemaName none with
    | .ok md => .ok md
    | .error _ =>
      match fetchDescriptorFromBSR remote with
      | .error _ => .error (.unknownSchemaLocalAndBSR schemaName)
      | .ok files =>
        match findMessageDescriptor globalFiles schemaName (some files) with
        | .error _ => .error (.unknownSchema schemaName)
        | .ok md => .ok md

/-! ### JSON decoding into a dynamic message

Models the external `protojson.UnmarshalOptions{DiscardUnknown: true}`
decoder exactly as `ValidateProto` configures it (lines 378-385): a payload
must be a JSON object; keys naming no field of the descriptor are silently
skipped; a duplicate known key and a value whose JSON kind mismatches its
field's kind are decode errors; the decoded dynamic message is the list of
accepted field assignments. -/

/-- A parsed JSON value. -/
inductive JsonValue
  | null
  | boolVal (b : Bool)
  | numVal (n : Int)
  | strVal (s : String)
  | arrVal (elems : List JsonValue)
  | objVal (entries : List (String × JsonValue))

/-- A raw request payload: `malformed` stands for bytes that are not
syntactically valid JSON. -/
inductive Payload
  | malformed
  | parsed (v : JsonValue)

/-- Does a JSON value fit a field's kind? -/
def checkKind : FieldKind → JsonValue → Bool
  | .stringField, .strVal _ => true
  | .intField, .numVal _ => true
  | .boolField, .boolVal _ => true
  | _, _ => false

/-- A populated dynamic message: the accepted field assignments in order. -/
abbrev DynMessage := List (String × JsonValue)

/-- Decode the entries of a JSON object into a dynamic message bound to `md`
(the modelled protojson object loop). -/
def decodeEntries (md : MessageDef) : List (String × JsonValue) → DynMessage →
    Except String DynMessage
  | [], acc => .ok acc
  | (k, v) :: rest, acc =>
    match md.fields.find? (fun f => f.name = k) with
    | none => decodeEntries md rest acc
    | some f =>
      if acc.any (fun kv => kv.1 = k) then .error ("duplicate field " ++ k)
      else if checkKind f.kind v then decodeEntries md rest (acc ++ [(k, v)])
      else .error ("invalid value for field " ++ k)

/-- Decode a payload into a dynamic message bound to `md`. -/
def decodeInto (md : MessageDef) : Payload → Except String DynMessage
  | .malformed => .error "syntax error"
  | .parsed (.objVal entries) => decodeEntries md entries []
  | .parsed _ => .error "payload is not a JSON object"

/-! ### The constraint evaluator's raw output and the humanizer -/

/-- One raw violation record from protovalidate, as `collectValidationErrors`
consumes it: `proto` is `none` when `violation.Proto` is nil, otherwise it
carries `(FieldPathString(proto.GetField()), proto.GetMessage())`; `str` is
`violation.String()`. -/
structure Violation where
  proto : Option (String × String)
  str : String
deriving DecidableEq

/-- The data of a `*protovalidate.ValidationError`: its violation records and
its top-level `err.Error()` text. -/
structure PvValidationError where
  violations : List Violation
  errMsg : String
deriving DecidableEq

/-- The outcome of one call of the external protovalidate evaluator. -/
inductive ValidatorOutcome
  | ok
  | validationError (e : PvValidationError)
  | otherError (msg : String)

/-- The external constraint evaluator: its verdict depends on the resolved
descriptor (which carries the constraints) and the populated message. -/
abbrev Validator := MessageDef → DynMessage → ValidatorOutcome

/-- The externally visible unit of `ValidateProto`'s error list. -/
structure ValidationError where
  friendly : String
  technical : String
deriving DecidableEq

/-- The per-violation body of `collectValidationErrors` (lines 422-456):
priority goes declared message with field path, then declared message
alone, then `makeFriendlyError` over the technical string; the technical
half is always the untouched `violation.String()`. -/
def humanizeViolation (v : Violation) : ValidationError :=
  match v.proto with
  | none => ⟨makeFriendlyError v.str, v.str⟩
  | some (fieldPath, message) =>
    if message ≠ "" then
      if fieldPath ≠ "" then
        ⟨"field \x27" ++ fieldPath ++ "\x27: " ++ message, v.str⟩
      else ⟨message, v.str⟩
    else if fieldPath ≠ "" then ⟨makeFriendlyError v.str, v.str⟩
    else ⟨makeFriendlyError v.str, v.str⟩

/-- `collectValidationErrors` from `validation.go` lines 417-471: humanize
every violation; when there are none, synthesize a single entry from the
error's top-level message. -/
def collectValidationErrors (e : PvValidationError) : List ValidationError :=
  if e.violations.map humanizeViolation = [] then
    [⟨makeFriendlyError e.errMsg, e.errMsg⟩]
  else e.violations.map humanizeViolation

/-- `ValidateProto` from `validation.go` lines 326-414.  The Go function
returns `(bool, []ValidationError, error)`; the middle component models the
Go slice with `none` for nil and `some []` for the empty slice. -/
def ValidateProto (mode : SchemaSourceMode) (globalFiles : Registry)
    (remote : DescriptorRemote) (validator : Validator)
    (schemaName : String) (payload : Payload) :
    Bool × Option (List ValidationError) × Option ProcError :=
  match resolveDescriptor mode globalFiles remote schemaName with
  | .error e => (false, none, some e)
  | .ok md =>
    match decodeInto md payload with
    | .error m => (false, none, some (.unmarshal m))
    | .ok dyn =>
      match validator md dyn with
      | .ok => (true, some [], none)
      | .validationError e => (false, some (collectValidationErrors e), none)
      | .otherError msg =>
        (false, some [⟨makeFriendlyError msg, msg⟩], none)

/-! ### Commit history (`backend/service/commits.go`, `backend/handler/commits.go`) -/

/-- The outward error of `ListCommits`, one constructor per `fmt.Errorf`:
transport failure, `unauthorized: invalid or missing BUF_TOKEN`,
`label not found: %s`, `Buf API returned status code %d`,
`failed to unmarshal JSON response: %w` / body-read failure. -/
inductive CommitsError
  | transport
  | unauthorized
  | labelNotFound (label : String)
  | statusCode (code : Nat)
  | decodeBody
deriving DecidableEq

/-- One page of label history as the handler returns it; the commit records
are opaque for this development. -/
structure LabelHistoryPage where
  nextPageToken : String
  values : List String
deriving DecidableEq

/-- The decoded body of one reply of the label-history endpoint. -/
inductive CommitsBody
  | malformed
  | wellFormed (page : LabelHistoryPage)

/-- A fixed answer of the remote label-history endpoint for one request. -/
inductive CommitsRemote
  | noResponse
  | response (code : Nat) (body : CommitsBody)

/-- `ListCommits` from `commits.go` lines 86-178: builds the request from its
arguments (which therefore do not influence the error mapping), then maps
status 401 to the dedicated unauthorized error, 404 to label-not-found,
any other non-200 to the generic status-code error, and finally decodes
the body.  Note: `ListCommits` performs no page-size validation. -/
def ListCommits (remote : CommitsRemote) (pageSize : Int) (label : String)
    (pageToken : String) : Except CommitsError LabelHistoryPage :=
  let _ := pageSize
  let _ := pageToken
  match remote with
  | .noResponse => .error .transport
  | .response code body =>
    if code = 401 then .error .unauthorized
    else if code = 404 then .error (.labelNotFound label)
    else if code ≠ 200 then .error (.statusCode code)
    else
      match body with
      | .malformed => .error .decodeBody
      | .wellFormed page => .ok page

/-- `strconv.Atoi`: an optional sign followed by one-or-more decimal digits
and nothing else.  (Machine-integer range errors are not modelled; the
handler only compares the result with zero.) -/
def goAtoi (s : String) : Option Int :=
  match s.data with
  | [] => none
  | c :: rest =>
    let signed : Bool × List Char :=
      if c = '-' then (true, rest)
      else if c = '+' then (false, rest) else (false, c :: rest)
    match signed with
    | (neg, digits) =>
      if digits.isEmpty || ¬ digits.all isDigitChar then none
      else
        let n : Nat := digits.foldl (fun acc d => acc * 10 + (d.toNat - 48)) 0
        some (if neg then -(n : Int) else (n : Int))

/-- What the `GetCommits` handler does before any service call: either reject
the request, or call `CommitsService.ListCommits` with these arguments. -/
inductive CommitsHandlerStep
  | badRequest (msg : String)
  | callService (pageSize : Int) (label : String) (pageToken : String)
deriving DecidableEq

/-- The parameter-processing phase of `GetCommits` from `handler/commits.go`
lines 35-67: an absent `pageSize` defaults to 26; a present one must parse
and be positive, else the handler answers 400 and returns before the service
is invoked; an absent `label` defaults to `"main"`. -/
def GetCommitsStep (pageSizeStr label pageToken : String) : CommitsHandlerStep :=
  let ps : Except String Int :=
    if pageSizeStr = "" then .ok 26
    else
      match goAtoi pageSizeStr with
      | none => .error "Invalid pageSize: must be a positive integer"
      | some n =>
        if n ≤ 0 then .error "Invalid pageSize: must be a positive integer"
        else .ok n
  match ps with
  | .error m => .badRequest m
  | .ok n => .callService n (if label = "" then "main" else label) pageToken

/-- The full `GetCommits` request path: the parameter phase, then (only when
it reaches `callService`) the service call against the remote state.
An `.error (400, msg)` is produced without consulting the remote. -/
def GetCommitsHandler (remote : CommitsRemote) (pageSizeStr label pageToken : String) :
    Except (Nat × String) (Except CommitsError LabelHistoryPage) :=
  match GetCommitsStep pageSizeStr label pageToken with
  | .badRequest m => .error (400, m)
  | .callService ps l t => .ok (ListCommits remote ps l t)

/-! ### Concrete fixtures

Small concrete registries, remotes, payloads and validators used by the
counterexamples and witnesses below. -/

/-- A message definition with no fields. -/
def mdEmpty : MessageDef := ⟨[]⟩

/-- A message definition with one integer field `age`. -/
def mdAge : MessageDef := ⟨[⟨"age", .intField⟩]⟩

/-- The empty registry. -/
def regEmpty : Registry := fun _ => none

/-- A local registry defining only `proto.OnlyLocal`. -/
def regOnlyLocal : Registry := fun n =>
  if n = "proto.OnlyLocal" then some (.message mdEmpty) else none

/-- A remote-side registry defining the (malformed) name `nodot`. -/
def regNodot : Registry := fun n =>
  if n = "nodot" then some (.message mdEmpty) else none

/-- A local registry defining `proto.User` with the `age` field. -/
def regUser : Registry := fun n =>
  if n = "proto.User" then some (.message mdAge) else none

/-- A successful reflection reply whose descriptor set is empty. -/
def remoteOkEmpty : DescriptorRemote := .response 200 (.wellFormed regEmpty)

/-- A successful reflection reply whose descriptor set defines `nodot`. -/
def remoteOkNodot : DescriptorRemote := .response 200 (.wellFormed regNodot)

/-- A reflection reply with HTTP status 404. -/
def remote404 : DescriptorRemote := .response 404 .malformed

/-- A reflection reply with HTTP status 401. -/
def remote401 : DescriptorRemote := .response 401 .malformed

/-- An evaluator that accepts every message. -/
def validatorOk : Validator := fun _ _ => .ok

/-- An evaluator that reports one violation on the `age` field. -/
def validatorAge : Validator := fun _ _ =>
  .validationError ⟨[⟨some ("age", "must be an adult"), "age: value must be gte 18"⟩], "validation error"⟩

/-- The payload `{}`. -/
def payloadEmptyObj : Payload := .parsed (.objVal [])

/-- The payload `{"age": "x"}`, whose value kind mismatches the `age` field
of `mdAge`. -/
def payloadAgeMismatch : Payload := .parsed (.objVal [("age", .strVal "x")])

/-- The shape of a decode-failure result of `ValidateProto`: failure flag,
nil error list, and a processing error produced by the JSON-unmarshal
wrapping (so the decode failure is never an element of the error list). -/
def IsDecodeFailure (r : Bool × Option (List ValidationError) × Option ProcError) : Prop :=
  r.1 = false ∧ r.2.1 = none ∧
    match r.2.2 with
    | some (.unmarshal _) => True
    | _ => False

/-- Well-shapedness of one `ValidateProto` result triple
`(success, errors, processingError)`: a processing error forces
`success = false` and a nil error list; otherwise the list is present and
is empty exactly on success. -/
def ResultWellShaped (r : Bool × Option (List ValidationError) × Option ProcError) : Prop :=
  match r.2.2 with
  | some _ => r.1 = false ∧ r.2.1 = none
  | none =>
    match r.2.1 with
    | none => False
    | some l => (r.1 = true ∧ l = []) ∨ (r.1 = false ∧ l ≠ [])


/-! ### Support lemmas

Length bounds for the regex matchers: each successful match consumes at
least one character, so the fuel `cs.length` given to the replacement
scanners never runs out before the input is exhausted. -/

theorem dropWhileLenLe (p : Char → Bool) : ∀ cs : List Char, (cs.dropWhile p).length ≤ cs.length := by
  intro cs
  induction cs with
  | nil => simp [List.dropWhile]
  | cons c cs ih =>
    simp only [List.dropWhile]
    cases p c <;> simp <;> omega

theorem dropLitLen : ∀ (pat cs r : List Char), dropLit pat cs = some r →
    r.length + pat.length = cs.length := by
  intro pat
  induction pat with
  | nil => intro cs r h; simp [dropLit] at h; simp [h]
  | cons p ps ih =>
    intro cs r h
    cases cs with
    | nil => simp [dropLit] at h
    | cons c cs =>
      simp only [dropLit] at h
      split at h
      · have := ih cs r h
        simp [List.length_cons]
        omega
      · exact absurd h (by simp)

theorem dropDigits1Len : ∀ (cs r : List Char), dropDigits1 cs = some r →
    r.length < cs.length := by
  intro cs r h
  cases cs with
  | nil => simp [dropDigits1] at h
  | cons c cs =>
    simp only [dropDigits1] at h
    split at h
    · cases h
      have := dropWhileLenLe isDigitChar cs
      simp [List.length_cons]
      omega
    · exact absurd h (by simp)

theorem dropSpaces1Len : ∀ (cs r : List Char), dropSpaces1 cs = some r →
    r.length < cs.length := by
  intro cs r h
  cases cs with
  | nil => simp [dropSpaces1] at h
  | cons c cs =>
    simp only [dropSpaces1] at h
    split at h
    · cases h
      have := dropWhileLenLe goRegexSpace cs
      simp [List.length_cons]
      omega
    · exact absurd h (by simp)

theorem matchLocatorLen (cs r : List Char) (h : matchLocator cs = some r) :
    r.length < cs.length := by
  simp only [matchLocator] at h
  split at h
  · exact absurd h (by simp)
  case _ cs1 h1 =>
    split at h
    · exact absurd h (by simp)
    case _ cs2 h2 =>
      split at h
      · exact absurd h (by simp)
      case _ cs3 h3 =>
        split at h
        · exact absurd h (by simp)
        case _ cs4 h4 =>
          split at h
          · exact absurd h (by simp)
          case _ cs5 h5 =>
            simp only [Option.some.injEq] at h
            have l1 := dropLitLen _ _ _ h1
            have l2 := dropDigits1Len _ _ h2
            have l3 := dropLitLen _ _ _ h3
            have l4 := dropDigits1Len _ _ h4
            have l5 := dropLitLen _ _ _ h5
            have l6 := dropWhileLenLe goRegexSpace cs5
            subst h
            omega

theorem matchContainerLen (cs r : List Char) (h : matchContainer cs = some r) :
    r.length < cs.length := by
  simp only [matchContainer] at h
  split at h
  · exact absurd h (by simp)
  case _ cs2 h2 =>
    split at h
    · exact absurd h (by simp)
    case _ cs4 h4 =>
      simp only [Option.some.injEq] at h
      have l1 := dropWhileLenLe goRegexSpace cs
      have l2 := dropLitLen _ _ _ h2
      have l3 := dropWhileLenLe nonQuote cs2
      have l4 := dropLitLen _ _ _ h4
      subst h
      simp [String.length] at l2 l4
      omega

/-! ### Claim C10: resolution-mode parsing is total and silently defaulting -/

/-- C10: for every environment and every context string, whenever the
trimmed, lower-cased value of the selected environment variable is none of
`bsr-only`, `local-only`, `local-then-bsr`, `GetSchemaSourceMode` returns
`LocalThenBSR` — an invalid or missing configuration never fails. -/
theorem c10_invalid_mode_defaults_to_localThenBSR (env : Env) (context : String)
    (h1 : modeString env context ≠ "bsr-only")
    (h2 : modeString env context ≠ "local-only")
    (h3 : modeString env context ≠ "local-then-bsr") :
    GetSchemaSourceMode env context = .LocalThenBSR := by
  unfold GetSchemaSourceMode
  simp only [if_neg h1, if_neg h2, if_neg h3]

/-- Witness for C10 at the unrecognised value `garbage` and the
unrecognised context `bogus`. -/
theorem c10_invalid_mode_defaults_to_localThenBSR_witness :
    GetSchemaSourceMode (fun _ => "garbage") "bogus" = .LocalThenBSR :=
  c10_invalid_mode_defaults_to_localThenBSR (fun _ => "garbage") "bogus"
    (by decide) (by decide) (by decide)

/-! ### Claim C8: non-positive page sizes are rejected before the service -/

/-- C8: a commit-history request whose `pageSize` parameter parses to a
value `≤ 0` is answered with the invalid-page-size 400 error by the
parameter phase of `GetCommits`, before `CommitsService.ListCommits` is
invoked; consequently the overall outcome is the same for every state of
the remote service (no network request is attempted). -/
theorem c8_nonpositive_pageSize_rejected_before_service
    (pageSizeStr label pageToken : String) (ps : Int)
    (hparse : goAtoi pageSizeStr = some ps) (hps : ps ≤ 0) :
    GetCommitsStep pageSizeStr label pageToken =
      .badRequest "Invalid pageSize: must be a positive integer" ∧
    ∀ remote : CommitsRemote,
      GetCommitsHandler remote pageSizeStr label pageToken =
        .error (400, "Invalid pageSize: must be a positive integer") := by
  have hne : pageSizeStr ≠ "" := by
    intro h
    rw [h] at hparse
    simp [goAtoi] at hparse
  have hstep : GetCommitsStep pageSizeStr label pageToken =
      .badRequest "Invalid pageSize: must be a positive integer" := by
    unfold GetCommitsStep
    simp only [if_neg hne, hparse, if_pos hps]
  refine ⟨hstep, fun remote => ?_⟩
  unfold GetCommitsHandler
  rw [hstep]

/-- Witness for C8 at the explicit query value `pageSize=0`. -/
theorem c8_nonpositive_pageSize_rejected_before_service_witness :
    GetCommitsHandler .noResponse "0" "" "" =
      .error (400, "Invalid pageSize: must be a positive integer") :=
  (c8_nonpositive_pageSize_rejected_before_service "0" "" "" 0
    (by decide) (by decide)).2 .noResponse

/-! ### Claim C3 (corrected): status mapping of the descriptor fetch -/

/-- C3 counterexample: during a descriptor fetch for validation, HTTP 401 is
NOT mapped to a dedicated unauthorized error — `fetchDescriptorFromBSR`
returns the generic status-code error for 401, and `ValidateProto` in
remote-only mode surfaces exactly that generic error. -/
theorem c3_counterexample_401_is_generic :
    fetchDescriptorFromBSR (.response 401 .malformed) = .error (.statusCode 401) ∧
    ValidateProto .BSROnly regEmpty remote401 validatorOk "proto.Task" payloadEmptyObj =
      (false, none, some (.bsrFetch (.statusCode 401))) := by
  exact ⟨rfl, rfl⟩

/-- C3 amended: during a descriptor fetch for validate, HTTP 404 maps to the
distinct not-found error and every other non-200 status — including 401 —
maps to the generic status-code error; the dedicated 401→Unauthorized
mapping exists only in `ListCommits` (which also maps 404 to a distinct
label-not-found error and other non-200 statuses to the generic error). -/
theorem c3_amended_status_mapping (code : Nat) (body : DescriptorBody)
    (body2 : CommitsBody) (ps : Int) (label tok : String) (h200 : code ≠ 200) :
    fetchDescriptorFromBSR (.response code body) =
      .error (if code = 404 then FetchError.notFound404 else FetchError.statusCode code) ∧
    ListCommits (.response code body2) ps label tok =
      .error (if code = 401 then CommitsError.unauthorized
              else if code = 404 then CommitsError.labelNotFound label
              else CommitsError.statusCode code) := by
  constructor
  · unfold fetchDescriptorFromBSR
    by_cases h404 : code = 404
    · simp [h404]
    · simp [h404, h200]
  · unfold ListCommits
    by_cases h401 : code = 401
    · simp [h401]
    · by_cases h404 : code = 404
      · simp [h401, h404]
      · simp [h401, h404, h200]

/-- Witness for the amended C3 at status 418. -/
theorem c3_amended_status_mapping_witness :
    fetchDescriptorFromBSR (.response 418 .malformed) = .error (.statusCode 418) ∧
    ListCommits (.response 418 .malformed) 1 "main" "" = .error (.statusCode 418) := by
  have h := c3_amended_status_mapping 418 .malformed .malformed 1 "main" "" (by decide)
  simpa using h

/-! ### Claim C2 (corrected): name validation before any source -/

/-- C2 counterexample: `ValidateProto` performs no name validation.  The name
`nodot` is malformed (rejected by `validateMessageName`), yet under
remote-only mode `ValidateProto` consults the remote source with it: with a
successful remote reply defining `nodot` the call succeeds outright, and
with a 404 reply it fails with a remote-fetch error — never with an
invalid-name failure, and with an outcome that depends on the remote
source. -/
theorem c2_counterexample_validateProto_skips_name_validation :
    validateMessageName "nodot" =
      .error "message name must be in format \x27package.Message\x27, got: nodot" ∧
    ValidateProto .BSROnly regEmpty remoteOkNodot validatorOk "nodot" payloadEmptyObj =
      (true, some [], none) ∧
    ValidateProto .BSROnly regEmpty remote404 validatorOk "nodot" payloadEmptyObj =
      (false, none, some (.bsrFetch .notFound404)) := by
  refine ⟨rfl, rfl, rfl⟩

/-- C2 amended: the shared name validation guards only `GetSchema`: for every
malformed type name, `GetSchema` rejects it with the invalid-name failure
before any source is consulted — under every resolution mode and
independently of the whole state of the local store and of the remote
service.  (`ValidateProto` passes the unvalidated name straight to
descriptor resolution, as the counterexample shows.) -/
theorem c2_amended_getSchema_rejects_malformed_first (messageName e : String)
    (h : validateMessageName messageName = .error e) :
    ∀ (mode : SchemaSourceMode) (localStore : LocalSchemaStore) (remote : SchemaRemote),
      GetSchema mode localStore remote messageName = .error (.invalidName e) := by
  intro mode localStore remote
  unfold GetSchema
  rw [h]

/-- Witness for the amended C2 at the dotless name `no_dot`. -/
theorem c2_amended_getSchema_rejects_malformed_first_witness :
    GetSchema .LocalOnly (fun _ => none) .noResponse "no_dot" =
      .error (.invalidName "message name must be in format \x27package.Message\x27, got: no_dot") :=
  c2_amended_getSchema_rejects_malformed_first "no_dot"
    "message name must be in format \x27package.Message\x27, got: no_dot"
    (by rfl) .LocalOnly (fun _ => none) .noResponse



/-! ### Humanizer lemmas (claims C5 and C6) -/

theorem append_ne_empty_left (s t : String) (hs : s ≠ "") : s ++ t ≠ "" := by
  intro he
  apply hs
  have hl := congrArg String.length he
  simp [String.length_append] at hl
  have h0 : s.length = 0 := by omega
  cases s with
  | mk d =>
    cases d with
    | nil => rfl
    | cons a b => simp [String.length] at h0

theorem constraintIDToFriendly_ne_empty (cid : String) : constraintIDToFriendly cid ≠ "" := by
  unfold constraintIDToFriendly
  split
  · decide
  · exact append_ne_empty_left _ _ (by decide)

theorem cleanupTechnicalError_eq_or_core (t : String) :
    cleanupTechnicalError t = t ∨
      (cleanupTechnicalError t = cleanupCore t ∧ cleanupCore t ≠ "") := by
  unfold cleanupTechnicalError
  split
  · exact Or.inl rfl
  case _ h =>
    refine Or.inr ⟨rfl, fun hc => h ?_⟩
    simp [hc]

theorem cleanupTechnicalError_ne_empty (t : String) (ht : t ≠ "") :
    cleanupTechnicalError t ≠ "" := by
  rcases cleanupTechnicalError_eq_or_core t with h | ⟨h, hne⟩
  · rw [h]; exact ht
  · rw [h]; exact hne

theorem makeFriendlyError_ne_empty (t : String) (ht : t ≠ "") :
    makeFriendlyError t ≠ "" := by
  unfold makeFriendlyError
  split
  · split
    · split
      · exact constraintIDToFriendly_ne_empty _
      · exact cleanupTechnicalError_ne_empty t ht
    · exact cleanupTechnicalError_ne_empty t ht
  · exact cleanupTechnicalError_ne_empty t ht

theorem humanizeViolation_friendly_ne_empty (v : Violation) (h : v.str ≠ "") :
    (humanizeViolation v).friendly ≠ "" := by
  unfold humanizeViolation
  cases hp : v.proto with
  | none => exact makeFriendlyError_ne_empty _ h
  | some pm =>
    obtain ⟨p, m⟩ := pm
    by_cases hm : m = ""
    · simp only [hm, ne_eq, not_true_eq_false, if_false]
      split
      · exact makeFriendlyError_ne_empty _ h
      · exact makeFriendlyError_ne_empty _ h
    · simp only [ne_eq, hm, not_false_eq_true, if_true]
      split
      · exact append_ne_empty_left _ _
          (append_ne_empty_left _ _ (append_ne_empty_left _ _ (by decide)))
      · exact hm

theorem collectValidationErrors_ne_nil (e : PvValidationError) :
    collectValidationErrors e ≠ [] := by
  unfold collectValidationErrors
  split
  · simp
  case _ h => exact h

/-- C5: a violation carrying both a non-empty field path and a non-empty
author-declared message humanizes to exactly
`field \x27<path>\x27: <declared message>`, with the technical half kept as
the untouched original violation string; `collectValidationErrors` emits
exactly that pair for such a violation. -/
theorem c5_humanizer_path_and_message (p m s em : String) (hp : p ≠ "") (hm : m ≠ "") :
    humanizeViolation ⟨some (p, m), s⟩ =
      ⟨"field \x27" ++ p ++ "\x27: " ++ m, s⟩ ∧
    collectValidationErrors ⟨[⟨some (p, m), s⟩], em⟩ =
      [⟨"field \x27" ++ p ++ "\x27: " ++ m, s⟩] := by
  have h1 : humanizeViolation ⟨some (p, m), s⟩ =
      ⟨"field \x27" ++ p ++ "\x27: " ++ m, s⟩ := by
    unfold humanizeViolation
    simp [hp, hm]
  refine ⟨h1, ?_⟩
  unfold collectValidationErrors
  simp [h1]

/-- Witness for C5 at the spec example: path `age`, message
`must be an adult`. -/
theorem c5_humanizer_path_and_message_witness :
    humanizeViolation ⟨some ("age", "must be an adult"), "age: value must be gte 18"⟩ =
      ⟨"field \x27age\x27: must be an adult", "age: value must be gte 18"⟩ ∧
    collectValidationErrors
        ⟨[⟨some ("age", "must be an adult"), "age: value must be gte 18"⟩], "validation error"⟩ =
      [⟨"field \x27age\x27: must be an adult", "age: value must be gte 18"⟩] := by
  have h := c5_humanizer_path_and_message "age" "must be an adult"
    "age: value must be gte 18" "validation error" (by decide) (by decide)
  simpa using h

/-! ### Claim C6 (corrected): friendly-text non-emptiness -/

/-- C6 counterexample: a violation with no field path, no declared message and
an empty technical string humanizes to an EMPTY friendly string — generic
cleanup of `""` yields `""`, which is "empty or unchanged", so the original
(empty) technical string is returned as the friendly text. -/
theorem c6_counterexample_empty_friendly :
    (humanizeViolation ⟨none, ""⟩).friendly = "" ∧ makeFriendlyError "" = "" := by
  exact ⟨by decide, by decide⟩

/-- C6 amended: the humanizer returns a non-empty friendly string for every
violation whose raw technical string is non-empty (a violation with empty
technical string, no path and no message yields an empty friendly string,
as the counterexample shows); and whenever generic cleanup yields an empty
or unchanged result, the original technical string itself is used as the
friendly text. -/
theorem c6_amended_nonempty_friendly (v : Violation) (t : String)
    (hv : v.str ≠ "") (ht : cleanupCore t = "" ∨ cleanupCore t = t) :
    (humanizeViolation v).friendly ≠ "" ∧ cleanupTechnicalError t = t := by
  refine ⟨humanizeViolation_friendly_ne_empty v hv, ?_⟩
  unfold cleanupTechnicalError
  split
  · rfl
  case _ h =>
    exact absurd (by rcases ht with hc | hc <;> simp [hc]) h

/-- Witness for the amended C6 at the violation text `boom` and the already
clean string `hello`. -/
theorem c6_amended_nonempty_friendly_witness :
    (humanizeViolation ⟨none, "boom"⟩).friendly ≠ "" ∧
    cleanupTechnicalError "hello" = "hello" :=
  c6_amended_nonempty_friendly ⟨none, "boom"⟩ "hello" (by decide) (Or.inr (by decide))



/-! ### Claim C9: the result triple of ValidateProto is always well-shaped -/

/-- C9: for every mode, local registry, remote state, evaluator, name and
payload, the `(success, errors, processingError)` triple of `ValidateProto`
is well-shaped: a processing error comes with `success = false` and a nil
error list; otherwise the list is present (empty exactly on success, the
empty slice on success, non-empty on constraint violations). -/
theorem c9_validateProto_result_wellShaped (mode : SchemaSourceMode)
    (g : Registry) (remote : DescriptorRemote) (v : Validator)
    (name : String) (p : Payload) :
    ResultWellShaped (ValidateProto mode g remote v name p) := by
  unfold ValidateProto
  cases hres : resolveDescriptor mode g remote name with
  | error e => simp [hres, ResultWellShaped]
  | ok md =>
    cases hdec : decodeInto md p with
    | error m => simp [hres, hdec, ResultWellShaped]
    | ok dyn =>
      cases hval : v md dyn with
      | ok => simp [hres, hdec, hval, ResultWellShaped]
      | validationError e =>
        have hne := collectValidationErrors_ne_nil e
        simp [hres, hdec, hval, ResultWellShaped, hne]
      | otherError msg =>
        simp [hres, hdec, hval, ResultWellShaped]

/-! ### Claim C4: malformed payloads abort before constraint evaluation -/

theorem decodeEntries_mismatch_error (md : MessageDef) :
    ∀ (entries : List (String × JsonValue)) (acc : DynMessage)
      (k : String) (w : JsonValue) (f : FieldDef),
      (k, w) ∈ entries →
      md.fields.find? (fun fd => fd.name = k) = some f →
      checkKind f.kind w = false →
      ∃ m, decodeEntries md entries acc = .error m := by
  intro entries
  induction entries with
  | nil =>
    intro acc k w f hmem
    simp at hmem
  | cons e rest ih =>
    intro acc k w f hmem hfind hkind
    obtain ⟨kh, vh⟩ := e
    rcases List.mem_cons.mp hmem with heq | hmem2
    · injection heq with hk hw
      subst hk
      subst hw
      by_cases hdup : acc.any (fun kv => kv.1 = k)
      · exact ⟨"duplicate field " ++ k, by simp [decodeEntries, hfind, hdup]⟩
      · exact ⟨"invalid value for field " ++ k,
          by simp [decodeEntries, hfind, hdup, hkind]⟩
    · cases hf : md.fields.find? (fun fd => fd.name = kh) with
      | none =>
        obtain ⟨m, hm⟩ := ih acc k w f hmem2 hfind hkind
        exact ⟨m, by simp [decodeEntries, hf, hm]⟩
      | some fh =>
        by_cases hdup : acc.any (fun kv => kv.1 = kh)
        · exact ⟨"duplicate field " ++ kh, by simp [decodeEntries, hf, hdup]⟩
        · by_cases hck : checkKind fh.kind vh
          · obtain ⟨m, hm⟩ := ih (acc ++ [(kh, vh)]) k w f hmem2 hfind hkind
            exact ⟨m, by simp [decodeEntries, hf, hdup, hck, hm]⟩
          · exact ⟨"invalid value for field " ++ kh,
              by simp [decodeEntries, hf, hdup, hck]⟩

/-- C4: for a name whose descriptor resolves and a payload that is either
syntactically malformed or contains a value whose kind mismatches its
field's kind, `ValidateProto` produces the distinct decode-failure
processing error with a nil (empty) error list, and the constraint
evaluator is never invoked: the outcome is identical for every pair of
evaluators. -/
theorem c4_decode_failure_aborts (mode : SchemaSourceMode) (g : Registry)
    (remote : DescriptorRemote) (name : String) (md : MessageDef) (p : Payload)
    (hres : resolveDescriptor mode g remote name = .ok md)
    (hbad : p = .malformed ∨
      ∃ entries k w f, p = .parsed (.objVal entries) ∧ (k, w) ∈ entries ∧
        md.fields.find? (fun fd => fd.name = k) = some f ∧ checkKind f.kind w = false) :
    ∀ v1 v2 : Validator,
      ValidateProto mode g remote v1 name p = ValidateProto mode g remote v2 name p ∧
      IsDecodeFailure (ValidateProto mode g remote v1 name p) := by
  intro v1 v2
  have hdec : ∃ m, decodeInto md p = .error m := by
    rcases hbad with hmal | ⟨entries, k, w, f, hp, hmem, hfind, hkind⟩
    · exact ⟨"syntax error", by subst hmal; rfl⟩
    · subst hp
      simpa [decodeInto] using decodeEntries_mismatch_error md entries [] k w f hmem hfind hkind
  obtain ⟨m, hm⟩ := hdec
  have h1 : ValidateProto mode g remote v1 name p = (false, none, some (.unmarshal m)) := by
    unfold ValidateProto
    rw [hres]
    simp only [hm]
  have h2 : ValidateProto mode g remote v2 name p = (false, none, some (.unmarshal m)) := by
    unfold ValidateProto
    rw [hres]
    simp only [hm]
  rw [h1, h2]
  exact ⟨rfl, rfl, rfl, trivial⟩

/-- Witness for C4: the resolvable name `proto.User` with payload
`{"age": "x"}` (a string where an integer is required), compared across two
different evaluators. -/
theorem c4_decode_failure_aborts_witness :
    ValidateProto .LocalOnly regUser .noResponse validatorOk "proto.User" payloadAgeMismatch =
      ValidateProto .LocalOnly regUser .noResponse validatorAge "proto.User" payloadAgeMismatch ∧
    IsDecodeFailure
      (ValidateProto .LocalOnly regUser .noResponse validatorOk "proto.User" payloadAgeMismatch) :=
  c4_decode_failure_aborts .LocalOnly regUser .noResponse "proto.User" mdAge payloadAgeMismatch
    (by rfl)
    (Or.inr ⟨[("age", .strVal "x")], "age", .strVal "x", ⟨"age", .intField⟩,
      rfl, by simp, by rfl, rfl⟩)
    validatorOk validatorAge

/-! ### Claim C7: unknown keys are silently discarded -/

theorem decodeEntries_skip_unknown (md : MessageDef) (k : String) (w : JsonValue)
    (hk : md.fields.find? (fun f => f.name = k) = none) :
    ∀ (pre post : List (String × JsonValue)) (acc : DynMessage),
      decodeEntries md (pre ++ (k, w) :: post) acc = decodeEntries md (pre ++ post) acc := by
  intro pre
  induction pre with
  | nil =>
    intro post acc
    simp [decodeEntries, hk]
  | cons e pre ih =>
    intro post acc
    obtain ⟨kh, vh⟩ := e
    simp only [List.cons_append, decodeEntries]
    cases hf : md.fields.find? (fun f => f.name = kh) with
    | none => exact ih post acc
    | some fh =>
      by_cases hdup : acc.any (fun kv => kv.1 = kh)
      · simp [hdup]
      · by_cases hck : checkKind fh.kind vh
        · simp only [hdup, if_false, hck, if_true]
          exact ih post (acc ++ [(kh, vh)])
        · simp [hdup, hck]

/-- C7: for a resolvable name and a JSON-object payload that decodes
successfully, inserting one extra key that names no field of the resolved
definition (at any position) yields a result identical to validating the
payload without that key. -/
theorem c7_unknown_key_ignored (mode : SchemaSourceMode) (g : Registry)
    (remote : DescriptorRemote) (v : Validator) (name : String) (md : MessageDef)
    (pre post : List (String × JsonValue)) (k : String) (w : JsonValue) (dm : DynMessage)
    (hres : resolveDescriptor mode g remote name = .ok md)
    (hk : md.fields.find? (fun f => f.name = k) = none)
    (hdec : decodeInto md (.parsed (.objVal (pre ++ post))) = .ok dm) :
    ValidateProto mode g remote v name (.parsed (.objVal (pre ++ (k, w) :: post))) =
      ValidateProto mode g remote v name (.parsed (.objVal (pre ++ post))) := by
  have hdd : decodeInto md (.parsed (.objVal (pre ++ (k, w) :: post))) =
      decodeInto md (.parsed (.objVal (pre ++ post))) := by
    simp only [decodeInto]
    exact decodeEntries_skip_unknown md k w hk pre post []
  unfold ValidateProto
  rw [hres]
  simp only [hdd]

/-- Witness for C7: `proto.User` with payload `{"age": 21}` and the extra
unknown key `extra`. -/
theorem c7_unknown_key_ignored_witness :
    ValidateProto .LocalOnly regUser .noResponse validatorOk "proto.User"
        (.parsed (.objVal [("age", .numVal 21), ("extra", .strVal "x")])) =
      ValidateProto .LocalOnly regUser .noResponse validatorOk "proto.User"
        (.parsed (.objVal [("age", .numVal 21)])) :=
  c7_unknown_key_ignored .LocalOnly regUser .noResponse validatorOk "proto.User" mdAge
    [("age", .numVal 21)] [] "extra" (.strVal "x") [("age", .numVal 21)]
    (by rfl) (by rfl) (by rfl)

/-! ### Claim C1 (corrected): BSROnly and the local registry -/

/-- C1 counterexample: under `BSROnly` the outcome of `ValidateProto` is NOT
independent of the local registry, and a name defined only locally need not
fail.  With the remote answering 200 with a descriptor set that lacks the
symbol, the lookup falls back to the local registry: validation of
`proto.OnlyLocal` (defined only locally) succeeds; emptying the local
registry — changing nothing else — flips the outcome to failure. -/
theorem c1_counterexample_local_consulted_in_bsrOnly :
    ValidateProto .BSROnly regOnlyLocal remoteOkEmpty validatorOk "proto.OnlyLocal"
        payloadEmptyObj = (true, some [], none) ∧
    ValidateProto .BSROnly regEmpty remoteOkEmpty validatorOk "proto.OnlyLocal"
        payloadEmptyObj = (false, none, some (.unknownSchema "proto.OnlyLocal")) :=
  ⟨rfl, rfl⟩

theorem findMessageDescriptor_files_hit (g : Registry) (name : String)
    (files : Registry) (md : MessageDef) (h : files name = some (.message md)) :
    findMessageDescriptor g name (some files) = .ok md := by
  simp only [findMessageDescriptor, h]

/-- C1 amended: under `BSROnly` the remote is always fetched, and the outcome
of `ValidateProto` is independent of the local registry whenever the remote
fetch fails (the fetch error is surfaced) or the fetched descriptor set
itself resolves the name to a message.  Only when a successful remote reply
lacks the symbol does the lookup fall back to the local registry, as the
counterexample shows. -/
theorem c1_amended_bsrOnly_local_independence (g g2 : Registry)
    (remote : DescriptorRemote) (v : Validator) (name : String) (p : Payload)
    (h : (∃ e, fetchDescriptorFromBSR remote = .error e) ∨
         (∃ files md, fetchDescriptorFromBSR remote = .ok files ∧
            files name = some (.message md))) :
    ValidateProto .BSROnly g remote v name p = ValidateProto .BSROnly g2 remote v name p := by
  rcases h with ⟨e, he⟩ | ⟨files, md, hf, hm⟩
  · have hr : ∀ gr : Registry, resolveDescriptor .BSROnly gr remote name =
        .error (.bsrFetch e) := by
      intro gr
      unfold resolveDescriptor
      simp only [he]
    unfold ValidateProto
    rw [hr g, hr g2]
  · have hr : ∀ gr : Registry, resolveDescriptor .BSROnly gr remote name = .ok md := by
      intro gr
      unfold resolveDescriptor
      simp only [hf, findMessageDescriptor_files_hit gr name files md hm]
    unfold ValidateProto
    rw [hr g, hr g2]

/-- Witness for the amended C1: with a 404 remote reply the two runs over the
differing local registries coincide. -/
theorem c1_amended_bsrOnly_local_independence_witness :
    ValidateProto .BSROnly regOnlyLocal remote404 validatorOk "proto.OnlyLocal"
        payloadEmptyObj =
      ValidateProto .BSROnly regEmpty remote404 validatorOk "proto.OnlyLocal"
        payloadEmptyObj :=
  c1_amended_bsrOnly_local_independence regOnlyLocal regEmpty remote404 validatorOk
    "proto.OnlyLocal" payloadEmptyObj (Or.inl ⟨.notFound404, rfl⟩)


end ValidationPoc
